import Mathlib

/-!
# Verification of the custom-sweatbox FSD server and simulation engine

A shallow embedding, in Lean 4, of the parts of the `custom-sweatbox`
Rust program that the specification's claims are about:

* the FSD relay server's first-message role classification, the
  controller/pilot message handlers and the controller broadcast
  (`src/server/fsd_server.rs`, `src/server/controller_handler.rs`,
  `src/server/pilot_handler.rs`, `src/server/message_handler.rs`);
* the simulator's squawk pool and spawn/removal bookkeeping
  (`src/simulation/simulator.rs`, `src/config.rs`);
* the aircraft route resolver, the flight-phase update and the turn
  controller (`src/aircraft/aircraft.rs`).

Rust strings are modelled as lists of characters (`Str`).  The model is
exact for ASCII data, which is what the wire protocol and the route
grammar use: Rust `char::is_alphabetic` / `char::is_numeric` are
modelled by `Char.isAlpha` / `Char.isDigit` (their ASCII restrictions)
and `str::to_uppercase` by `Char.toUpper` on each character.  `i32` and
`u32` values stay far from their overflow bounds in every reachable
state, so they are modelled by `Int` and `Nat`; `f64` values are
modelled by `ℚ`, with the `as i32`/`as u32` casts modelled by exact
truncation toward zero (`Int.tdiv`), and the transcendental great-circle
helpers kept abstract.  Fallible operations (Rust panics such as slicing
a string out of bounds) are modelled by `Option`.
-/

set_option maxRecDepth 10000

namespace Sweatbox

/-- Rust `&str`/`String`, modelled as its sequence of characters. -/
abbrev Str := List Char

/-- Character list of a Lean string literal, for writing concrete inputs. -/
def str (s : String) : Str := s.data

/-- UTF-8 encoded size of a character, as in Rust `char::len_utf8`. -/
def utf8Size (c : Char) : Nat :=
  if c.val < 0x80 then 1
  else if c.val < 0x800 then 2
  else if c.val < 0x10000 then 3
  else 4

/-- Total UTF-8 byte length of a string, as in Rust `str::len`. -/
def byteLen : Str → Nat
  | [] => 0
  | c :: t => utf8Size c + byteLen t

/-- Rust byte-based suffix slicing `s[n..]`.  Returns `none` exactly when
the Rust expression would panic: when `n` exceeds the byte length or is
not on a character boundary. -/
def byteSliceFrom : Str → Nat → Option Str
  | s, 0 => some s
  | [], _ + 1 => none
  | c :: t, n + 1 =>
    if utf8Size c ≤ n + 1 then byteSliceFrom t (n + 1 - utf8Size c) else none

/-- Rust `str::split(sep)`: splits at every separator, keeping empty
pieces; the result is never the empty list. -/
def splitOnChar (sep : Char) : Str → List Str
  | [] => [[]]
  | c :: t =>
    if c = sep then [] :: splitOnChar sep t
    else
      match splitOnChar sep t with
      | [] => [[c]]
      | h :: r => (c :: h) :: r

/-- Worker for `splitWs`: `cur` holds the current token, reversed. -/
def splitWsGo : Str → Str → List Str
  | [], cur => if cur.isEmpty then [] else [cur.reverse]
  | c :: t, cur =>
    if c.isWhitespace then
      if cur.isEmpty then splitWsGo t [] else cur.reverse :: splitWsGo t []
    else splitWsGo t (c :: cur)

/-- Rust `str::split_whitespace`: the maximal non-whitespace tokens. -/
def splitWs (s : Str) : List Str := splitWsGo s []

/-- Rust `str::contains(pat)`: some contiguous run of `s` equals `pat`. -/
def containsSeq (pat : Str) : Str → Bool
  | [] => pat.isEmpty
  | c :: t => pat.isPrefixOf (c :: t) || containsSeq pat t

/-- Rust `str::trim`: strip leading and trailing whitespace. -/
def trim (s : Str) : Str :=
  ((s.dropWhile Char.isWhitespace).reverse.dropWhile Char.isWhitespace).reverse

/-! ## `src/server/message_handler.rs` -/

/-- `message_handler.rs`: the type of a classified client connection. -/
inductive ClientType where
  | Controller
  | Pilot
deriving DecidableEq, Repr

/-- `message_handler.rs`: the forwarding directive a handler returns. -/
inductive MessageStatus where
  | Handled
  | ForwardToControllers
  | ForwardToAllControllers
deriving DecidableEq, Repr

/-- `message_handler.rs::parse_message`: split an FSD message at `':'`. -/
def parse_message (message : Str) : List Str := splitOnChar ':' message

/-! ## `src/server/controller_handler.rs` -/

/-- The mutable fields of `ControllerHandler` (the write half of the
socket carries no message-level state and is omitted). -/
structure ControllerHandler where
  callsign : Str
  server : Str
  cid : Str
  name : Str
  password : Str
  lat : Str
  lon : Str
  range : Str
  freq : Str
deriving DecidableEq, Repr

/-- `ControllerHandler::new`: every field starts empty. -/
def ControllerHandler.new : ControllerHandler :=
  ⟨[], [], [], [], [], [], [], [], []⟩

/-- `ControllerHandler::handle`.  The sends it performs (welcome
message, `$CR` reply) do not change the handler state and are not
modelled; the returned pair is the updated state and the directive.
`none` models a panic (the only panicking sites are the byte slice
`parts[0][3..]` and the index `parts[2]`). -/
def ControllerHandler.handle (self : ControllerHandler) (message : Str) :
    Option (ControllerHandler × MessageStatus) :=
  let parts := parse_message message
  match parts with
  | [] => some (self, .Handled)
  | p0 :: _ =>
    if (str "#AA").isPrefixOf p0 then
      if 12 ≤ parts.length then do
        let cs ← byteSliceFrom p0 3
        some ({ self with
                  callsign := cs
                  server := parts.getD 1 []
                  name := parts.getD 2 []
                  cid := parts.getD 3 []
                  password := parts.getD 4 []
                  lat := parts.getD 9 []
                  lon := parts.getD 10 []
                  range := parts.getD 11 [] }, .Handled)
      else some (self, .Handled)
    else if ('%' :: self.callsign).isPrefixOf p0 then
      let self :=
        if 7 ≤ parts.length then
          { self with
              freq := parts.getD 1 []
              lat := parts.getD 5 []
              lon := parts.getD 6 [] }
        else self
      some (self, .ForwardToControllers)
    else if (str "$CQ" ++ self.callsign).isPrefixOf p0 then
      if 3 ≤ parts.length then do
        let sub ← parts.get? 2
        if sub = str "IP" then some (self, .Handled)
        else if sub = str "FP" then some (self, .Handled)
        else some (self, .ForwardToControllers)
      else some (self, .ForwardToControllers)
    else some (self, .ForwardToControllers)

/-! ## `src/server/pilot_handler.rs` -/

/-- The mutable fields of `PilotHandler`. -/
structure PilotHandler where
  callsign : Str
  server : Str
  cid : Str
  name : Str
  password : Str
  lat : Str
  lon : Str
  squawk : Str
  fp_message : List Str
deriving DecidableEq, Repr

/-- `PilotHandler::new`: squawk starts at `"0000"`, the rest empty. -/
def PilotHandler.new : PilotHandler :=
  ⟨[], [], [], [], [], [], [], str "0000", []⟩

/-- `PilotHandler::handle`; `none` models a panic (the byte slice
`parts[0][3..]` is the only panicking site). -/
def PilotHandler.handle (self : PilotHandler) (message : Str) :
    Option (PilotHandler × MessageStatus) :=
  let parts := parse_message message
  match parts with
  | [] => some (self, .Handled)
  | p0 :: _ =>
    if (str "#AP").isPrefixOf p0 then
      if 8 ≤ parts.length then do
        let cs ← byteSliceFrom p0 3
        some ({ self with
                  callsign := cs
                  server := parts.getD 1 []
                  cid := parts.getD 2 []
                  password := parts.getD 3 []
                  name := parts.getD 7 [] }, .Handled)
      else some (self, .Handled)
    else if (str "@N").isPrefixOf p0 then
      let self :=
        if 3 ≤ parts.length then { self with squawk := parts.getD 2 [] }
        else self
      some (self, .ForwardToAllControllers)
    else if (str "$FP").isPrefixOf p0 then
      some ({ self with fp_message := parts }, .ForwardToAllControllers)
    else some (self, .ForwardToAllControllers)

/-! ## `src/server/fsd_server.rs` -/

/-- `FsdServer::handle_client`, first-message classification: the role
is chosen by substring containment, `message.contains("AA")` first and
then `message.contains("AP")`; an unmatched first message leaves the
connection unclassified. -/
def classify_first_message (message : Str) : Option ClientType :=
  if containsSeq (str "AA") message then some .Controller
  else if containsSeq (str "AP") message then some .Pilot
  else none

/-- `FsdServer::forward_to_controllers`.  `sendOk` models the success or
failure of each individual socket send; the returned list records, in
order, every controller the loop attempts to send to and the outcome of
that send (a failed send is only logged and the loop continues). -/
def forward_to_controllers (controllers : List ControllerHandler)
    (exclude_callsign : Str) (sendOk : ControllerHandler → Bool) :
    List (ControllerHandler × Bool) :=
  match controllers with
  | [] => []
  | c :: rest =>
    if exclude_callsign.isEmpty || c.callsign != exclude_callsign then
      (c, sendOk c) :: forward_to_controllers rest exclude_callsign sendOk
    else forward_to_controllers rest exclude_callsign sendOk

/-! ## `src/config.rs` -/

/-- The range table of `config.rs::get_ccams_squawks`, verbatim. -/
def ccams_ranges : List (Nat × Nat) :=
  [(201, 277), (301, 377), (470, 477), (501, 577),
   (730, 767), (1070, 1077), (1140, 1176), (1410, 1477),
   (2001, 2077), (2150, 2177), (2201, 2277), (2701, 2737),
   (3201, 3277), (3370, 3377), (3401, 3477), (3510, 3537),
   (4215, 4247), (4430, 4477), (4701, 4777), (5013, 5017),
   (5201, 5270), (5401, 5477), (5660, 5664), (5565, 5676),
   (6201, 6257), (6301, 6377), (6460, 6467), (6470, 6477),
   (7014, 7017), (7020, 7027), (7201, 7267), (7270, 7277),
   (7301, 7327), (7501, 7507), (7536, 7537), (7570, 7577),
   (7601, 7617), (7620, 7677), (7701, 7775), (1250, 1257),
   (6001, 6037)]

/-- `config.rs::get_ccams_squawks`: concatenate the inclusive ranges
`start..=end` of the table, in order. -/
def get_ccams_squawks : List Nat :=
  (ccams_ranges.map (fun p => List.range' p.1 (p.2 + 1 - p.1))).flatten

/-! ## `src/simulation/simulator.rs`: squawk assignment -/

/-- Rust `format!("{:04}", n)`: decimal digits, zero-padded to width 4. -/
def format4 (n : Nat) : Str :=
  let d := Nat.toDigits 10 n
  List.replicate (4 - d.length) '0' ++ d

/-- `Simulator::assign_squawk`: pop the last entry of the pool if any;
with an empty pool, fall back to a random code — `rand` models the value
drawn by `rng.gen_range(2000..7777)`.  The function always produces a
squawk; there is no error path. -/
def assign_squawk (pool : List Nat) (rand : Nat) : Str × List Nat :=
  match pool.getLast? with
  | some squawk => (format4 squawk, pool.dropLast)
  | none => (format4 rand, pool)

/-- `n` consecutive spawns drawing from the pool (`rand` fixed at `2000`
for the fallback): the list of assigned squawks and the leftover pool. -/
def assign_squawks (pool : List Nat) : Nat → List Str × List Nat
  | 0 => ([], pool)
  | n + 1 =>
    let (s, pool') := assign_squawk pool 2000
    let (rest, pool'') := assign_squawks pool' n
    (s :: rest, pool'')

/-! ## `src/aircraft/aircraft.rs`: route resolution -/

/-- The airway-classifier block inside `Aircraft::parse_route`: a token
of length 2–5 whose first character is alphabetic, that contains a
digit, and whose leading alphabetic run has length at most 2, is taken
for an airway designator and skipped. -/
def looks_like_airway (part : Str) : Bool :=
  2 ≤ part.length && part.length ≤ 5 &&
    (match part with
     | c :: _ => c.isAlpha
     | [] => false) &&
    part.any (·.isDigit) &&
    (part.takeWhile (·.isAlpha)).length ≤ 2

/-- The per-token decision of `Aircraft::parse_route`: `none` when the
token is skipped, `some` (uppercased) when it is retained as a fix. -/
def route_token_fix (part : Str) : Option Str :=
  if part.contains '/' then none
  else if looks_like_airway part then none
  else if part = str "DCT" then none
  else if 3 ≤ part.length && part.length ≤ 6 && part.all Char.isAlpha then
    some (part.map Char.toUpper)
  else none

/-- `Aircraft::parse_route`: tokenize by whitespace and keep the tokens
classified as fixes. -/
def parse_route (route : Str) : List Str :=
  (splitWs route).filterMap route_token_fix

/-- The line scan inside `Aircraft::extract_sid_waypoints`: find the
first `SID:ICAO:RUNWAY:SIDNAME:FIXES` line matching the SID name and
runway and return its whitespace-split, uppercased fix tokens. -/
def find_sid_line (sid_name runway : Str) : List Str → List Str
  | [] => []
  | line :: rest =>
    let line := trim line
    if line.isEmpty || line.head? = some ';' then
      find_sid_line sid_name runway rest
    else
      let parts := splitOnChar ':' line
      if 5 ≤ parts.length && parts.getD 0 [] == str "SID" &&
          parts.getD 2 [] == runway && parts.getD 3 [] == sid_name then
        (splitWs (parts.getD 4 [])).map (·.map Char.toUpper)
      else find_sid_line sid_name runway rest

/-- `Aircraft::extract_sid_waypoints`.  The SID file is read from disk
in the source; here its contents (split into lines, `none` when the
read fails) are a parameter.  The fix tokens of the matching line are
returned verbatim (uppercased), with no shape validation. -/
def extract_sid_waypoints (route runway : Str) (sidFileLines : Option (List Str)) :
    List Str :=
  match splitWs route with
  | [] => []
  | sid_part :: _ =>
    if sid_part.contains '/' then
      let sid_name := sid_part.takeWhile (· ≠ '/')
      match sidFileLines with
      | some lines => find_sid_line sid_name runway lines
      | none => []
    else []

/-- The `route_fixes` construction in `Aircraft::new_departure`: the SID
waypoints, then each enroute fix unless it repeats the list's current
last element. -/
def build_route_fixes (sid_fixes enroute : List Str) : List Str :=
  enroute.foldl
    (fun acc fix =>
      if acc.isEmpty || acc.getLast? ≠ some fix then acc ++ [fix] else acc)
    sid_fixes

/-- The resolved fix list of a freshly spawned departure
(`Aircraft::new_departure`): SID expansion spliced ahead of the parsed
enroute fixes. -/
def resolve_route_fixes (route runway : Str) (sidFileLines : Option (List Str)) :
    List Str :=
  build_route_fixes (extract_sid_waypoints route runway sidFileLines)
    (parse_route route)

/-! ## `src/aircraft/aircraft.rs`: turn control and flight model -/

/-- Rust `f64 as i32`/`f64 as u32` on an in-range value: truncation
toward zero, modelled exactly on `ℚ`. -/
def ratTrunc (q : ℚ) : Int := q.num.tdiv q.den

/-- The signed difference `((target - heading + 540) % 360) - 180`
computed by `Aircraft::turn_towards`; `%` is Rust's `i32` remainder,
which truncates toward zero (`Int.tmod`). -/
def turn_diff (heading target : Int) : Int :=
  (target - heading + 540).tmod 360 - 180

/-- `Aircraft::turn_towards` on the heading alone: snap when the
difference is under 2 degrees, otherwise advance by
`min(trunc(max(turn_rate * delta_time, 1)), |diff|)` in the sign of the
difference and renormalize with `(h + 360) % 360`. -/
def turn_towards (heading target : Int) (delta_time turn_rate : ℚ) : Int :=
  let diff := turn_diff heading target
  if |diff| < 2 then target
  else
    let turn_amount : Int := ratTrunc (max (turn_rate * delta_time) 1)
    let h :=
      if 0 < diff then heading + min turn_amount diff
      else heading - min turn_amount |diff|
    (h + 360).tmod 360

/-- Flight phases (`aircraft.rs::FlightPhase`). -/
inductive FlightPhase where
  | OnGround
  | Departing
  | Climbing
  | Cruise
  | Descending
  | Approach
  | Landing
deriving DecidableEq, Repr

/-- The fields of `flight_plan.rs::FlightPlan` that `Aircraft::update`
reads (the remaining fields are inert strings). -/
structure FlightPlan where
  cruise_speed : Nat
  cruise_altitude : Nat
deriving DecidableEq, Repr

/-- The floating-point great-circle helpers of `utils/navigation.rs`,
kept abstract: any triple of functions models one choice of `f64`
semantics for `haversine_nm`, `heading_from_to` and
`position_bearing_distance`. -/
structure NavModel where
  haversine_nm : ℚ → ℚ → ℚ → ℚ → ℚ
  heading_from_to : ℚ → ℚ → ℚ → ℚ → Int
  position_bearing_distance : ℚ → ℚ → Int → ℚ → ℚ × ℚ

/-- `utils/navigation.rs::FixDatabase`: name → coordinates. -/
def FixDatabase := Str → Option (ℚ × ℚ)

/-- `aircraft.rs::Aircraft` (the `spawn_time` clock is replaced by the
elapsed seconds passed into `update`). -/
structure Aircraft where
  callsign : Str
  aircraft_type : Str
  squawk : Str
  latitude : ℚ
  longitude : ℚ
  altitude : Int
  heading : Int
  ground_speed : Nat
  flight_plan : FlightPlan
  route_fixes : List Str
  current_fix_index : Nat
  phase : FlightPhase
  departure_runway : Str
  departure_heading : Int
  target_altitude : Int
  target_heading : Int
  target_speed : Nat
deriving DecidableEq

/-- `Aircraft::is_route_complete`: cursor index at or past the end. -/
def Aircraft.is_route_complete (a : Aircraft) : Bool :=
  a.route_fixes.length ≤ a.current_fix_index

/-- `Aircraft::update_position`: no movement at zero ground speed,
otherwise project `speed/3600 * Δt` nautical miles along the heading. -/
def Aircraft.update_position (a : Aircraft) (delta_time : ℚ) (nav : NavModel) :
    Aircraft :=
  if a.ground_speed = 0 then a
  else
    let distance_nm := ((a.ground_speed : ℚ) / 3600) * delta_time
    let p := nav.position_bearing_distance a.latitude a.longitude a.heading
      distance_nm
    { a with latitude := p.1, longitude := p.2 }

/-- `Aircraft::navigate_to_next_fix`: advance the cursor when within
0.5 nm of the current fix (retargeting the next one when it resolves),
then always turn toward the bearing of the fix that was current. -/
def Aircraft.navigate_to_next_fix (a : Aircraft) (fix_db : FixDatabase)
    (delta_time : ℚ) (turn_rate : ℚ) (nav : NavModel) : Aircraft :=
  if h : a.route_fixes.length ≤ a.current_fix_index then a
  else
    let current_fix := a.route_fixes.get ⟨a.current_fix_index, by omega⟩
    match fix_db current_fix with
    | none => a
    | some (fix_lat, fix_lon) =>
      let distance := nav.haversine_nm a.latitude a.longitude fix_lat fix_lon
      let required_heading :=
        nav.heading_from_to a.latitude a.longitude fix_lat fix_lon
      let a :=
        if distance < 1 / 2 then
          let a := { a with current_fix_index := a.current_fix_index + 1 }
          if h2 : a.current_fix_index < a.route_fixes.length then
            match fix_db (a.route_fixes.get ⟨a.current_fix_index, h2⟩) with
            | some (next_lat, next_lon) =>
              { a with target_heading :=
                  nav.heading_from_to a.latitude a.longitude next_lat next_lon }
            | none => a
          else a
        else a
      { a with heading :=
          turn_towards a.heading required_heading delta_time turn_rate }

/-- `Aircraft::update`: the phase state machine followed by the position
integration.  `elapsed` models `spawn_time.elapsed().as_secs()`. -/
def Aircraft.update (a : Aircraft) (delta_time : ℚ) (elapsed : Nat)
    (fix_db : FixDatabase) (turn_rate : ℚ) (nav : NavModel) : Aircraft :=
  let a :=
    match a.phase with
    | .OnGround =>
      if 5 ≤ elapsed then { a with phase := .Departing, ground_speed := 10 }
      else a
    | .Departing =>
      if a.ground_speed < 150 then
        { a with ground_speed :=
            a.ground_speed + (ratTrunc (50 * delta_time)).toNat }
      else
        let a := { a with phase := .Climbing, altitude := 50,
                          target_speed := 250 }
        if a.route_fixes ≠ [] then
          match fix_db (a.route_fixes.getD 0 []) with
          | some (fix_lat, fix_lon) =>
            let th := nav.heading_from_to a.latitude a.longitude fix_lat fix_lon
            { a with target_heading := th, heading := th }
          | none => a
        else a
    | .Climbing =>
      let climb_rate_fpm : ℚ :=
        if a.altitude < 10000 then 2000
        else if a.altitude < 20000 then 1800
        else 1500
      let a := { a with altitude :=
          a.altitude + ratTrunc (climb_rate_fpm / 60 * delta_time) }
      let a :=
        if a.ground_speed < a.target_speed then
          { a with ground_speed :=
              a.ground_speed + (ratTrunc (10 * delta_time)).toNat }
        else a
      let a :=
        if a.target_altitude ≤ a.altitude ∧
            a.target_altitude < (a.flight_plan.cruise_altitude : Int) * 100 then
          { a with target_altitude := (a.flight_plan.cruise_altitude : Int) * 100,
                   target_speed := 250 }
        else a
      let a :=
        if 10000 < a.altitude ∧ a.target_speed < 300 then
          { a with target_speed := 300 }
        else a
      let a := a.navigate_to_next_fix fix_db delta_time turn_rate nav
      if (a.flight_plan.cruise_altitude : Int) * 100 ≤ a.altitude then
        { a with altitude := (a.flight_plan.cruise_altitude : Int) * 100,
                 phase := .Cruise, target_speed := a.flight_plan.cruise_speed }
      else a
    | .Cruise =>
      let a := a.navigate_to_next_fix fix_db delta_time turn_rate nav
      if a.ground_speed < a.target_speed then
        { a with ground_speed :=
            a.ground_speed + (ratTrunc (5 * delta_time)).toNat }
      else a
    | _ => a
  a.update_position delta_time nav

/-! ## `src/simulation/simulator.rs`: tick-time removal -/

/-- The simulator state that `Simulator::update_aircraft` touches (live
aircraft, used-callsign set, squawk pool) plus the keys of the
`pilot_clients` map, which it leaves alone. -/
structure SimulatorState where
  aircraft : List Aircraft
  used_callsigns : List Str
  squawk_pool : List Nat
  pilot_clients : List Str

/-- `Simulator::update_aircraft`: collect the callsigns of
route-complete aircraft, remove them from the used-callsign set, drop
those aircraft, and update the rest.  `elapsedOf` supplies each
aircraft's `spawn_time.elapsed().as_secs()`. -/
def SimulatorState.update_aircraft (st : SimulatorState) (delta_time : ℚ)
    (elapsedOf : Aircraft → Nat) (fix_db : FixDatabase) (turn_rate : ℚ)
    (nav : NavModel) : SimulatorState :=
  let removed_callsigns :=
    (st.aircraft.filter (fun a => a.is_route_complete)).map (·.callsign)
  { st with
      used_callsigns :=
        removed_callsigns.foldl (fun l cs => l.filter (fun x => x ≠ cs))
          st.used_callsigns
      aircraft :=
        (st.aircraft.filter (fun a => ¬ a.is_route_complete)).map
          (fun a => a.update delta_time (elapsedOf a) fix_db turn_rate nav) }

/-! ## Concrete instances used for witnesses and counterexamples -/

/-- A trivial instance of the abstract navigation model. -/
def nav0 : NavModel :=
  ⟨fun _ _ _ _ => 0, fun _ _ _ _ => 0, fun la lo _ _ => (la, lo)⟩

/-- An empty fix database. -/
def fixdb0 : FixDatabase := fun _ => none

/-- A controller session already logged in with callsign `ABC`. -/
def ctrl_abc : ControllerHandler :=
  { ControllerHandler.new with callsign := str "ABC" }

/-- A spawned departure whose filed route resolved to no fixes at all
(its squawk `0201` was popped from the pool at spawn time). -/
def a0 : Aircraft :=
  { callsign := str "BAW0001"
    aircraft_type := str "A320"
    squawk := format4 201
    latitude := 0
    longitude := 0
    altitude := 0
    heading := 270
    ground_speed := 0
    flight_plan := ⟨450, 360⟩
    route_fixes := []
    current_fix_index := 0
    phase := .OnGround
    departure_runway := str "27R"
    departure_heading := 270
    target_altitude := 6000
    target_heading := 270
    target_speed := 250 }

/-- A simulator state holding the single aircraft `a0`, its callsign in
the used set, its pilot client, and one squawk left in the pool. -/
def st0 : SimulatorState :=
  ⟨[a0], [a0.callsign], [202], [a0.callsign]⟩

/-! ## Helper lemmas -/

theorem isPrefixOf_eq_append {l m : Str} (h : l.isPrefixOf m = true) :
    ∃ t, m = l ++ t := by
  obtain ⟨t, ht⟩ := ( List.isPrefixOf_iff_prefix.mp h)
  exact ⟨t, ht.symm⟩

theorem isPrefixOf_cons_shape {c : Char} {l p0 : Str}
    (h : (c :: l).isPrefixOf p0 = true) :
    ∃ r, p0 = c :: r ∧ l.isPrefixOf r = true := by
  cases p0 with
  | nil => simp [List.isPrefixOf] at h
  | cons d r =>
    simp only [List.isPrefixOf, Bool.and_eq_true, beq_iff_eq] at h
    exact ⟨r, by rw [h.1], h.2⟩

theorem containsSeq_of_isPrefixOf {l m : Str} (h : l.isPrefixOf m = true) :
    containsSeq l m = true := by
  cases m with
  | nil =>
    cases l with
    | nil => rfl
    | cons c t => simp [List.isPrefixOf] at h
  | cons c t => simp [containsSeq, h]

theorem splitOnChar_ne_nil (sep : Char) (m : Str) : splitOnChar sep m ≠ [] := by
  cases m with
  | nil => simp [splitOnChar]
  | cons c t =>
    unfold splitOnChar
    split
    · simp
    · cases hsp : splitOnChar sep t <;> simp

theorem splitOnChar_head_prefix (sep : Char) :
    ∀ (l m : Str), (∀ c ∈ l, c ≠ sep) → l.isPrefixOf m = true →
      ∃ p0 ps, splitOnChar sep m = p0 :: ps ∧ l.isPrefixOf p0 = true := by
  intro l
  induction l with
  | nil =>
    intro m _ _
    cases hsp : splitOnChar sep m with
    | nil => exact absurd hsp (splitOnChar_ne_nil sep m)
    | cons p0 ps => exact ⟨p0, ps, rfl, by simp [List.isPrefixOf]⟩
  | cons c l' ih =>
    intro m hsep h
    cases m with
    | nil => simp [List.isPrefixOf] at h
    | cons d m' =>
      simp only [List.isPrefixOf, Bool.and_eq_true, beq_iff_eq] at h
      obtain ⟨rfl, h'⟩ := h
      have hc : c ≠ sep := hsep c (List.mem_cons_self c l')
      obtain ⟨p0, ps, hsp, hpre⟩ :=
        ih m' (fun x hx => hsep x (List.mem_cons_of_mem c hx)) h'
      refine ⟨c :: p0, ps, ?_, ?_⟩
      · unfold splitOnChar
        rw [if_neg hc, hsp]
      · simp [List.isPrefixOf, hpre]

theorem mem_foldl_filter :
    ∀ (rem : List Str) (l : List Str) (cs : Str),
      cs ∈ rem.foldl (fun l c => l.filter (fun x => x ≠ c)) l ↔
        cs ∈ l ∧ cs ∉ rem := by
  intro rem
  induction rem with
  | nil => simp
  | cons r rs ih =>
    intro l cs
    simp only [List.foldl_cons, ih, List.mem_filter, decide_eq_true_eq,
      List.mem_cons]
    tauto

theorem assign_squawks_eq :
    ∀ (n : Nat) (pool : List Nat), n ≤ pool.length →
      assign_squawks pool n =
        ((pool.reverse.take n).map format4, (pool.reverse.drop n).reverse) := by
  intro n
  induction n with
  | zero => intro pool _; simp [assign_squawks]
  | succ n ih =>
    intro pool hlen
    rcases List.eq_nil_or_concat pool with rfl | ⟨q, a, rfl⟩
    · simp at hlen
    · rw [List.concat_eq_append] at *
      have hq : n ≤ q.length := by
        simpa using Nat.le_of_succ_le_succ (by simpa using hlen)
      simp [assign_squawks, assign_squawk, List.getLast?_concat,
        List.dropLast_concat, List.reverse_concat, ih q hq]

theorem char_toNat_ofNat {n : Nat} (h : n.isValidChar) :
    (Char.ofNat n).toNat = n := by
  rw [Char.ofNat, dif_pos h]
  rfl

theorem toUpper_isUpper_isAlpha {c : Char} (h : c.isAlpha = true) :
    (c.toUpper).isUpper = true ∧ (c.toUpper).isAlpha = true := by
  simp only [Char.isAlpha, Bool.or_eq_true] at h
  rcases h with hu | hl
  · have hnl : ¬ (97 ≤ c.toNat ∧ c.toNat ≤ 122) := by
      simp only [Char.isUpper, Bool.and_eq_true, decide_eq_true_eq] at hu
      obtain ⟨h1, h2⟩ := hu
      rw [ge_iff_le, UInt32.le_def, BitVec.le_def] at h1
      rw [UInt32.le_def, BitVec.le_def] at h2
      have h2' : c.toNat ≤ 90 := h2
      omega
    have hup : c.toUpper = c := by rw [Char.toUpper, if_neg hnl]
    rw [hup]
    exact ⟨hu, by simp [Char.isAlpha, hu]⟩
  · simp only [Char.isLower, Bool.and_eq_true, decide_eq_true_eq] at hl
    obtain ⟨h1, h2⟩ := hl
    rw [ge_iff_le, UInt32.le_def, BitVec.le_def] at h1
    rw [UInt32.le_def, BitVec.le_def] at h2
    have h1' : (97 : Nat) ≤ c.toNat := h1
    have h2' : c.toNat ≤ 122 := h2
    have hval : (c.toNat - 32).isValidChar := Or.inl (by omega)
    have htn : (Char.ofNat (c.toNat - 32)).toNat = c.toNat - 32 :=
      char_toNat_ofNat hval
    have hup : c.toUpper = Char.ofNat (c.toNat - 32) := by
      rw [Char.toUpper, if_pos ⟨h1', h2'⟩]
    have hbound : (c.toUpper).isUpper = true := by
      rw [hup]
      simp only [Char.isUpper, Bool.and_eq_true, decide_eq_true_eq]
      constructor
      · show (65 : UInt32) ≤ _
        rw [UInt32.le_def, BitVec.le_def]
        show (65 : Nat) ≤ (Char.ofNat (c.toNat - 32)).toNat
        omega
      · show _ ≤ (90 : UInt32)
        rw [UInt32.le_def, BitVec.le_def]
        show (Char.ofNat (c.toNat - 32)).toNat ≤ (90 : Nat)
        omega
    exact ⟨hbound, by simp [Char.isAlpha, hbound]⟩

theorem update_position_idx (a : Aircraft) (dt : ℚ) (nav : NavModel) :
    (a.update_position dt nav).current_fix_index = a.current_fix_index := by
  simp only [Aircraft.update_position]
  split <;> rfl

theorem navigate_to_next_fix_idx (a : Aircraft) (fix_db : FixDatabase)
    (dt tr : ℚ) (nav : NavModel) :
    a.current_fix_index ≤
      (a.navigate_to_next_fix fix_db dt tr nav).current_fix_index := by
  simp only [Aircraft.navigate_to_next_fix]
  split
  · exact le_rfl
  · split
    · exact le_rfl
    · split
      · split
        · split <;> exact Nat.le_succ _
        · exact Nat.le_succ _
      · exact le_rfl

theorem idx_ite (C : Prop) [Decidable C] (x y : Aircraft) :
    (ite C x y).current_fix_index =
      ite C x.current_fix_index y.current_fix_index := by
  split <;> rfl

theorem idx_match_fix (o : Option (ℚ × ℚ)) (f : ℚ → ℚ → Aircraft)
    (y : Aircraft) :
    (match o with
     | some (la, lo) => f la lo
     | none => y).current_fix_index =
      (match o with
       | some (la, lo) => (f la lo).current_fix_index
       | none => y.current_fix_index) := by
  rcases o with _ | ⟨la, lo⟩ <;> rfl

theorem update_idx (a : Aircraft) (dt : ℚ) (elapsed : Nat)
    (fix_db : FixDatabase) (tr : ℚ) (nav : NavModel) :
    a.current_fix_index ≤
      (a.update dt elapsed fix_db tr nav).current_fix_index := by
  simp only [Aircraft.update]
  rw [update_position_idx]
  split
  · simp only [idx_ite]
    repeat' split
    all_goals exact le_rfl
  · simp only [idx_ite, idx_match_fix]
    repeat' split
    all_goals exact le_rfl
  · simp only [idx_ite, ite_self]
    refine le_trans ?_ (navigate_to_next_fix_idx _ _ _ _ _)
    simp only [idx_ite]
    repeat' split
    all_goals exact le_rfl
  · simp only [idx_ite, ite_self]
    exact navigate_to_next_fix_idx _ _ _ _ _
  · exact le_rfl

theorem ratTrunc_eq_floor_of_nonneg {q : ℚ} (h : 0 ≤ q) : ratTrunc q = ⌊q⌋ := by
  rw [ratTrunc, Rat.floor_def]
  exact Int.tdiv_eq_ediv (Rat.num_nonneg.mpr h) (by positivity)

theorem one_le_ratTrunc {q : ℚ} (h : 1 ≤ q) : 1 ≤ ratTrunc q := by
  rw [ratTrunc_eq_floor_of_nonneg (le_trans zero_le_one h)]
  exact Int.le_floor.mpr (by exact_mod_cast h)

/-! ## Claim C1: first-message role classification -/

/-- C1, counterexample: the first message `#APAAB:SRV:123:PW:1:9:1:Joe`
carries the pilot login command (its command part begins with `#AP`),
yet the connection is classified as a Controller, because classification
tests `message.contains("AA")` before `message.contains("AP")` and the
callsign `AAB` contains `AA`.  So the role is not determined by the
command's `#AA`/`#AP` command prefix. -/
theorem classification_contains_counterexample :
    (str "#AP").isPrefixOf (str "#APAAB:SRV:123:PW:1:9:1:Joe") = true ∧
    classify_first_message (str "#APAAB:SRV:123:PW:1:9:1:Joe") =
      some ClientType.Controller ∧
    ClientType.Controller ≠ ClientType.Pilot := by
  refine ⟨by decide, by decide, by decide⟩

/-- C1, amended: on its first complete message a connection is
classified by substring containment, `"AA"` anywhere in the message
giving Controller and otherwise `"AP"` anywhere giving Pilot.  In
particular a message starting with `#AA` is always classified
Controller, and one starting with `#AP` is classified Pilot exactly when
`"AA"` occurs nowhere in it. -/
theorem classification_by_substring (m : Str) :
    ((str "#AA").isPrefixOf m = true →
       classify_first_message m = some ClientType.Controller) ∧
    ((str "#AP").isPrefixOf m = true → containsSeq (str "AA") m = false →
       classify_first_message m = some ClientType.Pilot) := by
  constructor
  · intro h
    obtain ⟨t, rfl⟩ := isPrefixOf_eq_append h
    have hc : containsSeq (str "AA") (str "#AA" ++ t) = true := by
      show containsSeq ['A', 'A'] ('#' :: 'A' :: 'A' :: t) = true
      simp [containsSeq, List.isPrefixOf]
    unfold classify_first_message
    rw [hc]
    simp
  · intro h hna
    obtain ⟨t, rfl⟩ := isPrefixOf_eq_append h
    have hap : containsSeq (str "AP") (str "#AP" ++ t) = true := by
      show containsSeq ['A', 'P'] ('#' :: 'A' :: 'P' :: t) = true
      simp [containsSeq, List.isPrefixOf]
    unfold classify_first_message
    rw [hna, hap]
    simp

/-- C1, witness for `classification_by_substring` at concrete inputs. -/
theorem classification_by_substring_witness :
    classify_first_message (str "#AALON:SRV") = some ClientType.Controller ∧
    classify_first_message (str "#APBAW1:SRV") = some ClientType.Pilot := by
  exact ⟨(classification_by_substring (str "#AALON:SRV")).1 (by decide),
    (classification_by_substring (str "#APBAW1:SRV")).2 (by decide) (by decide)⟩

/-! ## Claim C2: squawk pool uniqueness and exhaustion -/

/-- C2, counterexample: the squawk pool table overlaps — `(5660, 5664)`
is contained in `(5565, 5676)` — so the deterministic pop order repeats
the code `5664` within the first 589 of the pool's 1702 spawns (well
under pool size); and a spawn from an exhausted pool does not fail with
any error: `assign_squawk` on the empty pool returns the randomly drawn
fallback code (here `2001`, itself a pool value assigned earlier). -/
theorem squawk_pool_duplicate_counterexample :
    589 ≤ get_ccams_squawks.length ∧
    (assign_squawks get_ccams_squawks 589).1.get? 488 = some (format4 5664) ∧
    (assign_squawks get_ccams_squawks 589).1.get? 588 = some (format4 5664) ∧
    (488 : Nat) ≠ 588 ∧
    assign_squawk [] 2001 = (format4 2001, []) := by
  have hlen : 589 ≤ get_ccams_squawks.length := by decide
  have he := assign_squawks_eq 589 get_ccams_squawks hlen
  refine ⟨hlen, ?_, ?_, by decide, rfl⟩
  · rw [he]
    decide
  · rw [he]
    decide

/-- C2, amended: `n ≤ pool.length` spawns assign exactly the last `n`
pool entries in reverse (formatted to four digits), so they are pairwise
distinct precisely when that slice of the table is duplicate-free — the
shipped table is not, as `5660`–`5664` occur twice; and a spawn that
finds the pool exhausted never fails: it assigns the random fallback
code and leaves the pool empty. -/
theorem assign_squawk_pops_reversed_pool (pool : List Nat) (n : Nat)
    (h : n ≤ pool.length) :
    (assign_squawks pool n).1 = (pool.reverse.take n).map format4 ∧
    (∀ r, assign_squawk [] r = (format4 r, [])) := by
  exact ⟨by rw [assign_squawks_eq n pool h], fun r => rfl⟩

/-- C2, witness for `assign_squawk_pops_reversed_pool` on a two-entry
pool. -/
theorem assign_squawk_pops_reversed_pool_witness :
    2 ≤ ([201, 202] : List Nat).length ∧
    (assign_squawks [201, 202] 2).1 = [str "0202", str "0201"] ∧
    assign_squawk [] 2001 = (format4 2001, []) := by
  have h := assign_squawk_pops_reversed_pool [201, 202] 2 (by decide)
  exact ⟨by decide, by rw [h.1]; decide, h.2 2001⟩

/-! ## Claim C3: handoff and query forwarding directives -/

/-- C3, counterexample: a `$HO` handoff and a `$CQ` query with subtype
`WH` (neither `IP` nor `FP`) both yield directive
`ForwardToControllers` — the exclude-the-sender broadcast — not
`ForwardToAllControllers` as claimed. -/
theorem handoff_directive_counterexample :
    ctrl_abc.handle (str "$HOABC:LON:BAW1") =
      some (ctrl_abc, MessageStatus.ForwardToControllers) ∧
    ctrl_abc.handle (str "$CQABC:SRV:WH:BAW1") =
      some (ctrl_abc, MessageStatus.ForwardToControllers) ∧
    MessageStatus.ForwardToControllers ≠ MessageStatus.ForwardToAllControllers := by
  refine ⟨by decide, by decide, by decide⟩

/-- C3, amended: a `$HO` or `$HA` handoff, and a `$CQ` query addressed
with the session's own callsign whose subtype is neither `IP` nor `FP`,
yield directive `ForwardToOtherControllers` (the handler's
`ForwardToControllers`, which the server broadcasts excluding the
sender), with the session state unchanged. -/
theorem handoff_and_query_forward_to_other_controllers
    (s : ControllerHandler) (m : Str) :
    (((str "$HO").isPrefixOf m = true ∨ (str "$HA").isPrefixOf m = true) →
       s.handle m = some (s, MessageStatus.ForwardToControllers)) ∧
    (∀ (p0 : Str) (ps : List Str) (sub : Str), splitOnChar ':' m = p0 :: ps →
       (str "$CQ" ++ s.callsign).isPrefixOf p0 = true →
       (p0 :: ps).get? 2 = some sub →
       sub ≠ str "IP" → sub ≠ str "FP" →
       s.handle m = some (s, MessageStatus.ForwardToControllers)) := by
  constructor
  · rintro (h | h)
    · obtain ⟨p0, ps, hsp, hpre⟩ :=
        splitOnChar_head_prefix ':' (str "$HO") m (by decide) h
      obtain ⟨t, rfl⟩ := isPrefixOf_eq_append hpre
      simp only [ControllerHandler.handle, parse_message, hsp]
      simp [show ((str "#AA").isPrefixOf (str "$HO" ++ t)) = false from rfl,
        show (('%' :: s.callsign).isPrefixOf (str "$HO" ++ t)) = false from rfl,
        show ((str "$CQ" ++ s.callsign).isPrefixOf (str "$HO" ++ t)) = false
          from rfl]
    · obtain ⟨p0, ps, hsp, hpre⟩ :=
        splitOnChar_head_prefix ':' (str "$HA") m (by decide) h
      obtain ⟨t, rfl⟩ := isPrefixOf_eq_append hpre
      simp only [ControllerHandler.handle, parse_message, hsp]
      simp [show ((str "#AA").isPrefixOf (str "$HA" ++ t)) = false from rfl,
        show (('%' :: s.callsign).isPrefixOf (str "$HA" ++ t)) = false from rfl,
        show ((str "$CQ" ++ s.callsign).isPrefixOf (str "$HA" ++ t)) = false
          from rfl]
  · intro p0 ps sub hsp hpre hsub hip hfp
    have eCQ : str "$CQ" ++ s.callsign = '$' :: 'C' :: 'Q' :: s.callsign := rfl
    obtain ⟨r, rfl, -⟩ := isPrefixOf_cons_shape (eCQ ▸ hpre)
    have hlen : 3 ≤ (('$' :: r) :: ps).length := by
      rcases List.get?_eq_some.mp hsub with ⟨hlt, -⟩
      simp only [List.length_cons] at hlt ⊢
      omega
    have c1 : ¬ ((str "#AA").isPrefixOf ('$' :: r) = true) := by
      rw [show ((str "#AA").isPrefixOf ('$' :: r)) = false from rfl]
      simp
    have c2 : ¬ (('%' :: s.callsign).isPrefixOf ('$' :: r) = true) := by
      rw [show (('%' :: s.callsign).isPrefixOf ('$' :: r)) = false from rfl]
      simp
    simp only [ControllerHandler.handle, parse_message, hsp]
    rw [if_neg c1, if_neg c2, if_pos hpre, if_pos hlen, hsub]
    simp [hip, hfp]

/-- C3, witness for `handoff_and_query_forward_to_other_controllers`. -/
theorem handoff_and_query_forward_witness :
    ctrl_abc.handle (str "$HABAW1:LON") =
      some (ctrl_abc, MessageStatus.ForwardToControllers) ∧
    ctrl_abc.handle (str "$CQABC:SRV:BC:BAW1") =
      some (ctrl_abc, MessageStatus.ForwardToControllers) := by
  refine ⟨(handoff_and_query_forward_to_other_controllers ctrl_abc
      (str "$HABAW1:LON")).1 (Or.inr (by decide)),
    (handoff_and_query_forward_to_other_controllers ctrl_abc
      (str "$CQABC:SRV:BC:BAW1")).2 (str "$CQABC")
      [str "SRV", str "BC", str "BAW1"] (str "BC") (by decide) (by decide)
      (by decide) (by decide) (by decide)⟩

/-! ## Claim C4: broadcast exclusion -/

/-- C4, counterexample: the broadcast excludes by callsign, not by
session identity.  A controller session whose callsign is still empty
(its first message contained `AA` without being a well-formed 12-field
`#AA` login) broadcasts with `exclude_callsign = ""`, and the loop then
sends to every controller including the sender itself. -/
theorem broadcast_self_delivery_counterexample :
    (forward_to_controllers [ControllerHandler.new]
        ControllerHandler.new.callsign (fun _ => false)).map Prod.fst =
      [ControllerHandler.new] := by
  decide

/-- C4, amended: the broadcast attempts a send to exactly the
controllers whose callsign differs from the excluded callsign — all of
them, the sender included, when the excluded callsign is empty — and
the attempt list is independent of each send's success or failure, so
one recipient's failure never prevents delivery to the rest. -/
theorem forward_to_controllers_filter (ctrls : List ControllerHandler)
    (excl : Str) (sendOk : ControllerHandler → Bool) :
    forward_to_controllers ctrls excl sendOk =
      (ctrls.filter (fun c => excl.isEmpty || c.callsign != excl)).map
        (fun c => (c, sendOk c)) := by
  induction ctrls with
  | nil => rfl
  | cons c rest ih =>
    rw [forward_to_controllers, List.filter_cons]
    by_cases hc : (excl.isEmpty || c.callsign != excl) = true
    · simp [hc, ih]
    · simp [hc, ih]

/-! ## Claim C6: mismatched-callsign position and query messages -/

/-- C6, counterexample: with session callsign `ABC`, the position report
`%XYZ:...` of another callsign leaves the cached fields unchanged but is
not ignored: the handler returns `ForwardToControllers`, so the server
forwards it to the other controllers. -/
theorem mismatched_callsign_forward_counterexample :
    ctrl_abc.handle (str "%XYZ:121.500:2:25:4:51.0:0.0:100") =
      some (ctrl_abc, MessageStatus.ForwardToControllers) ∧
    MessageStatus.ForwardToControllers ≠ MessageStatus.Handled := by
  refine ⟨by decide, by decide⟩

/-- C6, amended: for a controller session with a non-empty callsign, a
`%` position or `$CQ` query whose first colon-field does not start with
`%`/`$CQ` followed by the session's own callsign leaves the session
state unchanged but falls through to the default directive
`ForwardToOtherControllers`; it is forwarded, not dropped.  (Matching is
by string prefix on the first field, not by comparing the embedded
callsign itself.) -/
theorem mismatched_callsign_default_forward (s : ControllerHandler)
    (m : Str) (p0 : Str) (ps : List Str) (_hcs : s.callsign ≠ [])
    (hsp : splitOnChar ':' m = p0 :: ps)
    (h : (p0.head? = some '%' ∧ ('%' :: s.callsign).isPrefixOf p0 = false) ∨
      ((str "$CQ").isPrefixOf p0 = true ∧
        (str "$CQ" ++ s.callsign).isPrefixOf p0 = false)) :
    s.handle m = some (s, MessageStatus.ForwardToControllers) := by
  rcases h with ⟨hh, hb⟩ | ⟨hq, hb⟩
  · cases p0 with
    | nil => simp at hh
    | cons d t =>
      have hd : d = '%' := by simpa using hh
      subst hd
      simp only [ControllerHandler.handle, parse_message, hsp]
      simp [show ((str "#AA").isPrefixOf ('%' :: t)) = false from rfl,
        hb,
        show ((str "$CQ" ++ s.callsign).isPrefixOf ('%' :: t)) = false
          from rfl]
  · obtain ⟨t, rfl⟩ := isPrefixOf_eq_append hq
    simp only [ControllerHandler.handle, parse_message, hsp]
    simp [show ((str "#AA").isPrefixOf (str "$CQ" ++ t)) = false from rfl,
      show (('%' :: s.callsign).isPrefixOf (str "$CQ" ++ t)) = false from rfl,
      hb]

/-- C6, witness for `mismatched_callsign_default_forward`. -/
theorem mismatched_callsign_default_forward_witness :
    ctrl_abc.handle (str "$CQXYZ:SRV:WH") =
      some (ctrl_abc, MessageStatus.ForwardToControllers) :=
  mismatched_callsign_default_forward ctrl_abc (str "$CQXYZ:SRV:WH")
    (str "$CQXYZ") [str "SRV", str "WH"] (by decide) (by decide)
    (Or.inr ⟨by decide, by decide⟩)

/-! ## Claim C10: handler totality and slice safety -/

/-- C10, confirmed: for every session state and every UTF-8 input
message, both handlers return a directive and never reach a panicking
operation (`none` in the model): in particular the byte slice
`parts[0][3..]` taken after a `#AA`/`#AP` prefix test is always in
bounds and on a character boundary, and equals dropping the three
prefix characters. -/
theorem handlers_total_and_slice_safe (c : ControllerHandler)
    (p : PilotHandler) (m : Str) :
    (c.handle m).isSome = true ∧ (p.handle m).isSome = true ∧
    (∀ p0 : Str,
      ((str "#AA").isPrefixOf p0 = true ∨ (str "#AP").isPrefixOf p0 = true) →
      3 ≤ byteLen p0 ∧ byteSliceFrom p0 3 = some (p0.drop 3)) := by
  refine ⟨?_, ?_, ?_⟩
  · cases hsp : splitOnChar ':' m with
    | nil => exact absurd hsp (splitOnChar_ne_nil ':' m)
    | cons p0 ps =>
      simp only [ControllerHandler.handle, parse_message, hsp]
      by_cases h1 : ((str "#AA").isPrefixOf p0) = true
      · rw [if_pos h1]
        obtain ⟨t, rfl⟩ := isPrefixOf_eq_append h1
        by_cases h2 : 12 ≤ ((str "#AA" ++ t) :: ps).length
        · have hb : byteSliceFrom (str "#AA" ++ t) 3 = some t := by
            show byteSliceFrom ('#' :: 'A' :: 'A' :: t) 3 = some t
            simp [byteSliceFrom, utf8Size]
          rw [if_pos h2, hb]
          simp
        · rw [if_neg h2]; simp
      · rw [if_neg h1]
        by_cases h2 : (('%' :: c.callsign).isPrefixOf p0) = true
        · rw [if_pos h2]; simp
        · rw [if_neg h2]
          by_cases h3 : ((str "$CQ" ++ c.callsign).isPrefixOf p0) = true
          · rw [if_pos h3]
            by_cases h4 : 3 ≤ (p0 :: ps).length
            · rw [if_pos h4]
              obtain ⟨sub, hg⟩ : ∃ sub, (p0 :: ps).get? 2 = some sub := by
                cases hg : (p0 :: ps).get? 2 with
                | some s => exact ⟨s, rfl⟩
                | none =>
                  have := List.get?_eq_none.mp hg
                  simp only [List.length_cons] at h4 this
                  omega
              rw [hg]
              simp only [Option.bind_eq_bind, Option.some_bind]
              split_ifs <;> simp
            · rw [if_neg h4]; simp
          · rw [if_neg h3]; simp
  · cases hsp : splitOnChar ':' m with
    | nil => exact absurd hsp (splitOnChar_ne_nil ':' m)
    | cons p0 ps =>
      simp only [PilotHandler.handle, parse_message, hsp]
      by_cases h1 : ((str "#AP").isPrefixOf p0) = true
      · rw [if_pos h1]
        obtain ⟨t, rfl⟩ := isPrefixOf_eq_append h1
        by_cases h2 : 8 ≤ ((str "#AP" ++ t) :: ps).length
        · have hb : byteSliceFrom (str "#AP" ++ t) 3 = some t := by
            show byteSliceFrom ('#' :: 'A' :: 'P' :: t) 3 = some t
            simp [byteSliceFrom, utf8Size]
          rw [if_pos h2, hb]
          simp
        · rw [if_neg h2]; simp
      · rw [if_neg h1]
        by_cases h2 : ((str "@N").isPrefixOf p0) = true
        · rw [if_pos h2]; simp
        · rw [if_neg h2]
          by_cases h3 : ((str "$FP").isPrefixOf p0) = true
          · rw [if_pos h3]; simp
          · rw [if_neg h3]; simp
  · rintro p0 (h | h)
    · obtain ⟨t, rfl⟩ := isPrefixOf_eq_append h
      have hdrop : (str "#AA" ++ t).drop 3 = t := by
        show ('#' :: 'A' :: 'A' :: t).drop 3 = t
        simp
      rw [hdrop]
      constructor
      · show 3 ≤ 1 + (1 + (1 + byteLen t))
        omega
      · show byteSliceFrom ('#' :: 'A' :: 'A' :: t) 3 = some t
        simp [byteSliceFrom, utf8Size]
    · obtain ⟨t, rfl⟩ := isPrefixOf_eq_append h
      have hdrop : (str "#AP" ++ t).drop 3 = t := by
        show ('#' :: 'A' :: 'P' :: t).drop 3 = t
        simp
      rw [hdrop]
      constructor
      · show 3 ≤ 1 + (1 + (1 + byteLen t))
        omega
      · show byteSliceFrom ('#' :: 'A' :: 'P' :: t) 3 = some t
        simp [byteSliceFrom, utf8Size]

/-- C10, witness for `handlers_total_and_slice_safe`. -/
theorem handlers_total_and_slice_safe_witness :
    (ControllerHandler.new.handle
        (str "#AALON:SRV:Joe:1:PW:5:9:1:0:51.0:0.0:300")).isSome = true ∧
    (PilotHandler.new.handle (str "@N:BAW1:2201:1:51:0:100:250:90:0")).isSome
      = true ∧
    byteSliceFrom (str "#AAXYZ") 3 = some (str "XYZ") := by
  have H := handlers_total_and_slice_safe ControllerHandler.new PilotHandler.new
  have hs := (H []).2.2 (str "#AAXYZ") (Or.inl (by decide))
  refine ⟨(H (str "#AALON:SRV:Joe:1:PW:5:9:1:0:51.0:0.0:300")).1,
    (H (str "@N:BAW1:2201:1:51:0:100:250:90:0")).2.1, ?_⟩
  have hd : (str "#AAXYZ").drop 3 = str "XYZ" := by decide
  exact hd ▸ hs.2

/-! ## Claim C7: retained waypoint shape -/

/-- C7, counterexample: SID expansion splices the SID file's fix tokens
into the resolved list with no validation.  With SID line
`SID:EGLL:09L:BPK1X:A1 B2`, the spawned route
`BPK1X/09L DVR` resolves to `[A1, B2, DVR]`, and the retained waypoint
`A1` is two characters long and contains the non-alphabetic `1`. -/
theorem sid_splice_unvalidated_counterexample :
    resolve_route_fixes (str "BPK1X/09L DVR") (str "09L")
        (some [str "SID:EGLL:09L:BPK1X:A1 B2"]) =
      [str "A1", str "B2", str "DVR"] ∧
    (str "A1").length = 2 ∧
    '1' ∈ str "A1" ∧ Char.isAlpha '1' = false := by
  refine ⟨by decide, by decide, by decide, by decide⟩

/-- C7, amended: every waypoint retained from the filed route string by
`parse_route` is 3–6 characters, all uppercase alphabetic; fixes spliced
in by SID expansion are exempt — they are taken verbatim (uppercased)
from the SID file with no shape check. -/
theorem parse_route_fix_shape (route : Str) (w : Str)
    (hw : w ∈ parse_route route) :
    3 ≤ w.length ∧ w.length ≤ 6 ∧
      ∀ c ∈ w, c.isUpper = true ∧ c.isAlpha = true := by
  obtain ⟨part, _hpart, hfix⟩ := List.mem_filterMap.mp hw
  unfold route_token_fix at hfix
  split_ifs at hfix with h1 h2 h3 h4
  injection hfix with hfix
  subst hfix
  simp only [Bool.and_eq_true, decide_eq_true_eq] at h4
  obtain ⟨⟨hl3, hl6⟩, hall⟩ := h4
  refine ⟨by simpa using hl3, by simpa using hl6, ?_⟩
  intro c hc
  obtain ⟨c', hc', rfl⟩ := List.mem_map.mp hc
  have halpha : c'.isAlpha = true := by
    have := List.all_eq_true.mp hall c' hc'
    simpa using this
  exact toUpper_isUpper_isAlpha halpha

/-- C7, witness for `parse_route_fix_shape`: `DVR` is retained and is at
least three characters long. -/
theorem parse_route_fix_shape_witness :
    str "DVR" ∈ parse_route (str "BPK5K/09L DVR UL9 KONAN") ∧
    3 ≤ (str "DVR").length := by
  refine ⟨by decide,
    (parse_route_fix_shape (str "BPK5K/09L DVR UL9 KONAN") (str "DVR")
      (by decide)).1⟩

/-! ## Claim C8: turn controller -/

/-- C8, counterexample: at current heading 0 and target 180 the computed
signed difference is `-180`, outside the claimed interval `(-180, 180]`
(the code computes in `[-180, 180)`), and the aircraft turns
counterclockwise: one tick at 3 deg/s and Δt = 1 gives heading 357, not
3. -/
theorem turn_diff_boundary_counterexample :
    turn_diff 0 180 = -180 ∧ ¬ (-180 < turn_diff 0 180) ∧
    turn_towards 0 180 1 3 = 357 := by
  have hd : turn_diff 0 180 = -180 := by decide
  have hm : ratTrunc (max ((3 : ℚ) * 1) 1) = 3 := by
    rw [show max ((3 : ℚ) * 1) 1 = 3 from by norm_num]
    rfl
  refine ⟨hd, by omega, ?_⟩
  simp only [turn_towards, hd, hm]
  decide

/-- C8, amended: for headings in `[0, 360)` and positive Δt, the signed
difference lies in `[-180, 180)` and is congruent to `target - heading`
mod 360; below 2 degrees in magnitude the heading snaps exactly to the
target; otherwise the heading advances by
`min(trunc(max(turnRate·Δt, 1)), |diff|)` — at least 1 degree per tick —
in the rotational sense of the difference's sign, and the result is
renormalized into `[0, 360)`. -/
theorem turn_towards_spec (h t : Int) (dt rate : ℚ)
    (hh0 : 0 ≤ h) (hh1 : h < 360) (ht0 : 0 ≤ t) (ht1 : t < 360)
    (_hdt : 0 < dt) :
    (-180 ≤ turn_diff h t ∧ turn_diff h t < 180 ∧
      turn_diff h t ≡ t - h [ZMOD 360]) ∧
    (|turn_diff h t| < 2 → turn_towards h t dt rate = t) ∧
    (2 ≤ |turn_diff h t| →
      1 ≤ min (ratTrunc (max (rate * dt) 1)) |turn_diff h t| ∧
      turn_towards h t dt rate ≡
        h + (if 0 < turn_diff h t
          then min (ratTrunc (max (rate * dt) 1)) (turn_diff h t)
          else -(min (ratTrunc (max (rate * dt) 1)) |turn_diff h t|))
        [ZMOD 360]) ∧
    (0 ≤ turn_towards h t dt rate ∧ turn_towards h t dt rate < 360) := by
  have harg : (0 : Int) ≤ t - h + 540 := by omega
  have htm : (t - h + 540).tmod 360 = (t - h + 540) % 360 :=
    Int.tmod_eq_emod harg (by norm_num)
  have hem0 : 0 ≤ (t - h + 540) % 360 := Int.emod_nonneg _ (by norm_num)
  have hem1 : (t - h + 540) % 360 < 360 := Int.emod_lt_of_pos _ (by norm_num)
  have hd : turn_diff h t = (t - h + 540) % 360 - 180 := by
    rw [turn_diff, htm]
  have hd0 : -180 ≤ turn_diff h t := by omega
  have hd1 : turn_diff h t < 180 := by omega
  have habs : |turn_diff h t| ≤ 180 := abs_le.mpr ⟨by omega, by omega⟩
  have hA : 1 ≤ ratTrunc (max (rate * dt) 1) :=
    one_le_ratTrunc (le_max_right _ _)
  refine ⟨⟨hd0, hd1, ?_⟩, ?_, ?_, ?_⟩
  · rw [Int.modEq_iff_dvd, hd]
    exact ⟨(t - h + 540) / 360 - 1, by omega⟩
  · intro hsnap
    simp only [turn_towards]
    rw [if_pos hsnap]
  · intro hbig
    have hmin1 : 1 ≤ min (ratTrunc (max (rate * dt) 1)) |turn_diff h t| :=
      le_min hA (by omega)
    refine ⟨hmin1, ?_⟩
    simp only [turn_towards]
    rw [if_neg (not_lt.mpr hbig)]
    have hminle : min (ratTrunc (max (rate * dt) 1)) |turn_diff h t| ≤
        |turn_diff h t| := min_le_right _ _
    by_cases hpos : 0 < turn_diff h t
    · rw [if_pos hpos, if_pos hpos]
      have he : turn_diff h t = |turn_diff h t| := (abs_of_pos hpos).symm
      have hm2 : min (ratTrunc (max (rate * dt) 1)) (turn_diff h t) ≤ 180 := by
        rw [he]; omega
      have hm1 : 1 ≤ min (ratTrunc (max (rate * dt) 1)) (turn_diff h t) := by
        rw [he]; exact hmin1
      rw [Int.tmod_eq_emod (by omega) (by norm_num)]
      show _ % 360 = _ % 360
      omega
    · rw [if_neg hpos, if_neg hpos]
      have hm2 : min (ratTrunc (max (rate * dt) 1)) |turn_diff h t| ≤ 180 := by
        omega
      rw [Int.tmod_eq_emod (by omega) (by norm_num)]
      show _ % 360 = _ % 360
      omega
  · by_cases hsnap : |turn_diff h t| < 2
    · simp only [turn_towards]
      rw [if_pos hsnap]
      exact ⟨ht0, ht1⟩
    · simp only [turn_towards]
      rw [if_neg hsnap]
      have hbig : 2 ≤ |turn_diff h t| := not_lt.mp hsnap
      have hmin1 : 1 ≤ min (ratTrunc (max (rate * dt) 1)) |turn_diff h t| :=
        le_min hA (by omega)
      have hminle : min (ratTrunc (max (rate * dt) 1)) |turn_diff h t| ≤
          |turn_diff h t| := min_le_right _ _
      by_cases hpos : 0 < turn_diff h t
      · rw [if_pos hpos]
        have he : turn_diff h t = |turn_diff h t| := (abs_of_pos hpos).symm
        have hm2 : min (ratTrunc (max (rate * dt) 1)) (turn_diff h t) ≤ 180 := by
          rw [he]; omega
        have hm1 : 1 ≤ min (ratTrunc (max (rate * dt) 1)) (turn_diff h t) := by
          rw [he]; exact hmin1
        rw [Int.tmod_eq_emod (by omega) (by norm_num)]
        exact ⟨Int.emod_nonneg _ (by norm_num), Int.emod_lt_of_pos _ (by norm_num)⟩
      · rw [if_neg hpos]
        have hm2 : min (ratTrunc (max (rate * dt) 1)) |turn_diff h t| ≤ 180 := by
          omega
        rw [Int.tmod_eq_emod (by omega) (by norm_num)]
        exact ⟨Int.emod_nonneg _ (by norm_num), Int.emod_lt_of_pos _ (by norm_num)⟩

/-- C8, witness for `turn_towards_spec` at heading 0, target 90,
Δt = 1 s, rate 3 deg/s. -/
theorem turn_towards_spec_witness :
    -180 ≤ turn_diff 0 90 ∧ 0 ≤ turn_towards 0 90 1 3 ∧
    turn_towards 0 90 1 3 < 360 := by
  have H := turn_towards_spec 0 90 1 3 (by norm_num) (by norm_num)
    (by norm_num) (by norm_num) (by norm_num)
  exact ⟨H.1.1, H.2.2.2.1, H.2.2.2.2⟩

/-! ## Claim C9: route cursor monotonicity and completion -/

/-- C9, confirmed: one update step never decreases the route cursor
index; route completion holds exactly when the cursor has reached the
route length; and an aircraft whose resolved route is empty reports
route-complete immediately. -/
theorem route_cursor_monotone_and_completion (a : Aircraft) (dt : ℚ)
    (elapsed : Nat) (fix_db : FixDatabase) (tr : ℚ) (nav : NavModel) :
    a.current_fix_index ≤
      (a.update dt elapsed fix_db tr nav).current_fix_index ∧
    (a.is_route_complete = true ↔
      a.route_fixes.length ≤ a.current_fix_index) ∧
    (a.route_fixes = [] → a.is_route_complete = true) := by
  refine ⟨update_idx a dt elapsed fix_db tr nav, ?_, ?_⟩
  · simp [Aircraft.is_route_complete]
  · intro h
    simp [Aircraft.is_route_complete, h]

/-- C9, witness for `route_cursor_monotone_and_completion` on the
empty-route aircraft `a0`. -/
theorem route_cursor_monotone_and_completion_witness :
    a0.is_route_complete = true ∧
    a0.current_fix_index ≤ (a0.update 1 0 fixdb0 3 nav0).current_fix_index := by
  have H := route_cursor_monotone_and_completion a0 1 0 fixdb0 3 nav0
  exact ⟨H.2.2 rfl, H.1⟩

/-! ## Claim C5: removal of route-complete aircraft -/

/-- C5, counterexample: `a0` has completed its (empty) route; the
removal step drops the aircraft and releases its callsign, but the
squawk pool is left exactly as it was — `a0`'s squawk `0201` is never
returned to it — and `a0`'s pilot client entry survives (it is only
dropped later, when a position send to it fails). -/
theorem removal_keeps_squawk_and_session_counterexample :
    a0.is_route_complete = true ∧
    (st0.update_aircraft 1 (fun _ => 0) fixdb0 3 nav0).aircraft = [] ∧
    (st0.update_aircraft 1 (fun _ => 0) fixdb0 3 nav0).used_callsigns = [] ∧
    (st0.update_aircraft 1 (fun _ => 0) fixdb0 3 nav0).squawk_pool = [202] ∧
    (st0.update_aircraft 1 (fun _ => 0) fixdb0 3 nav0).pilot_clients =
      [str "BAW0001"] := by
  refine ⟨by decide, by decide, by decide, by decide, by decide⟩

/-- C5, amended: each tick the removal step releases exactly the
callsigns of the route-complete aircraft and drops those aircraft; the
squawk pool and the pilot-client sessions are untouched (squawks are
never returned to the pool and a completed aircraft's session is not
torn down here). -/
theorem update_aircraft_releases_only_callsigns (st : SimulatorState)
    (dt : ℚ) (elapsedOf : Aircraft → Nat) (fix_db : FixDatabase) (tr : ℚ)
    (nav : NavModel) :
    (st.update_aircraft dt elapsedOf fix_db tr nav).squawk_pool =
      st.squawk_pool ∧
    (st.update_aircraft dt elapsedOf fix_db tr nav).pilot_clients =
      st.pilot_clients ∧
    (∀ cs, cs ∈ (st.update_aircraft dt elapsedOf fix_db tr nav).used_callsigns
      ↔ cs ∈ st.used_callsigns ∧
        cs ∉ (st.aircraft.filter (fun a => a.is_route_complete)).map
          (fun a => a.callsign)) ∧
    (st.update_aircraft dt elapsedOf fix_db tr nav).aircraft =
      (st.aircraft.filter (fun a => ¬ a.is_route_complete)).map
        (fun a => a.update dt (elapsedOf a) fix_db tr nav) := by
  refine ⟨rfl, rfl, ?_, rfl⟩
  intro cs
  exact mem_foldl_filter _ _ _

end Sweatbox
